import Mathlib

/-!
# Verification of the square-sale-debt-management bookkeeping logic

Shallow embedding of the client-side bookkeeping operations of the
square-business-suite application:

* debtor creation and payment recording
  (`src/components/PaymentModal.tsx` handleSubmit, DebtPage createDebtor /
  addItemToBundle / removeItemFromBundle),
* sale recording with stock lookup and deduction (SalesPage handleSubmit),
* stock insertion and restocking (StockManagement handleSubmit / handleRestock),
* the CSV serializer (`exportToCsv`).

Money amounts (JS floating-point numbers in the source) are modelled as
rationals `ℚ`; quantities (produced by `parseInt`) as integers `ℤ`.
Each remote-table write is modelled as explicit state passing on lists of
rows; a fallible network call takes an explicit failure flag so that the
partial-failure behaviour of the straight-line code can be stated.
-/

namespace SquareSuite

/-- A row of the `debtors` table, restricted to the bookkeeping fields the
payment logic reads and writes. -/
structure Debtor where
  grand_total : ℚ
  total_paid : ℚ
  current_balance : ℚ
  status : String
deriving DecidableEq

/-- A row of the `debt_items` table (bookkeeping fields). In
`addItemToBundle`, `quantity` comes from `parseInt` and `selling_price`
from `parseFloat`. -/
structure DebtItem where
  item_name : String
  quantity : ℤ
  selling_price : ℚ
  total : ℚ
deriving DecidableEq

/-- The remote store touched by debtor creation: the `debtors`,
`debt_items` and `payments` tables.  Rows are tagged with the debtor id
they belong to (`debtorData.id` in the source); a fresh id is the current
length of the debtors list. -/
structure Store where
  debtors : List (Nat × Debtor)
  debt_items : List (Nat × DebtItem)
  payments : List (Nat × ℚ)
deriving DecidableEq

/-- `itemSchema` of DebtPage: item name 1–100 characters, quantity ≥ 1,
selling price ≥ 0.01. -/
def itemValid (name : String) (q : ℤ) (p : ℚ) : Bool :=
  1 ≤ name.length && name.length ≤ 100 && 1 ≤ q && 1/100 ≤ p

/-- The in-form bundle: the item list plus the running grand total
(`formData.items` / `formData.grand_total`). -/
structure BundleForm where
  items : List DebtItem
  grand_total : ℚ
deriving DecidableEq

/-- `addItemToBundle`: on passing validation, append the item with
`total = quantity * sellingPrice` and recompute the grand total as the sum
(`updatedItems.reduce((sum, item) => sum + item.total, 0)`); on failing
validation the form is left unchanged. -/
def addItemToBundle (f : BundleForm) (name : String) (q : ℤ) (p : ℚ) :
    BundleForm :=
  if itemValid name q p then
    let total : ℚ := (q : ℚ) * p
    let updatedItems := f.items ++ [⟨name, q, p, total⟩]
    ⟨updatedItems, (updatedItems.map DebtItem.total).sum⟩
  else f

/-- `removeItemFromBundle`: drop the item at `index`
(`items.filter((_, i) => i !== index)`) and recompute the grand total. -/
def removeItemFromBundle (f : BundleForm) (index : Nat) : BundleForm :=
  let updatedItems := f.items.eraseIdx index
  ⟨updatedItems, (updatedItems.map DebtItem.total).sum⟩

/-- An interaction with the bundle form before `createDebtor` is pressed. -/
inductive BundleOp
  | add (name : String) (q : ℤ) (p : ℚ)
  | remove (index : Nat)
deriving DecidableEq

def applyBundleOp (f : BundleForm) : BundleOp → BundleForm
  | .add name q p => addItemToBundle f name q p
  | .remove i => removeItemFromBundle f i

/-- The bundle obtained from the empty form by a sequence of add/remove
interactions. -/
def buildBundle (ops : List BundleOp) : BundleForm :=
  ops.foldl applyBundleOp ⟨[], 0⟩

/-- `customerSchema` of DebtPage: name 2–100 characters, phone
10–15 characters. -/
def customerValid (name phone : String) : Bool :=
  2 ≤ name.length && name.length ≤ 100 &&
    10 ≤ phone.length && phone.length ≤ 15

/-- Outcome of `createDebtor` as surfaced to the user. -/
inductive CreateResult
  | validationFailed
  | debtorInsertFailed
  | itemsInsertFailed
  | success
deriving DecidableEq

/-- `createDebtor` of DebtPage.  The three network calls (debtor insert,
debt-items insert, payment insert) are straight-line; `failDebtor`,
`failItems`, `failPayment` say whether each call fails.  The source checks
the error of the first two inserts and returns early; the error of the
payment insert (`await supabase.from("payments").insert(...)` with no
destructuring) is not checked, so a failed payment insert still ends in
the success path. -/
def createDebtor (st : Store) (name phone : String) (f : BundleForm)
    (payment_amount : ℚ) (failDebtor failItems failPayment : Bool) :
    CreateResult × Store :=
  if ¬ customerValid name phone then (.validationFailed, st)
  else if f.items.isEmpty then (.validationFailed, st)
  else if payment_amount < 0 then (.validationFailed, st)
  else if f.grand_total < payment_amount then (.validationFailed, st)
  else
    let currentBalance := f.grand_total - payment_amount
    let status := if currentBalance ≤ 0 then "paid" else "pending"
    if failDebtor then (.debtorInsertFailed, st)
    else
      let id := st.debtors.length
      let row : Debtor := ⟨f.grand_total, payment_amount, currentBalance, status⟩
      let st1 : Store := { st with debtors := st.debtors ++ [(id, row)] }
      if failItems then (.itemsInsertFailed, st1)
      else
        let st2 : Store :=
          { st1 with debt_items := st1.debt_items ++ f.items.map (fun it => (id, it)) }
        if 0 < payment_amount then
          if failPayment then (.success, st2)
          else (.success, { st2 with payments := st2.payments ++ [(id, payment_amount)] })
        else (.success, st2)

/-- The state the payment modal acts on: the selected debtor row and the
`payments` rows for it. -/
structure PayState where
  debtor : Debtor
  payments : List ℚ
deriving DecidableEq

/-- `handleSubmit` of PaymentModal: `paymentSchema` requires
`amount ≥ 0.01`; a payment above the current balance is refused; otherwise
a payment row is inserted and the debtor row is updated with
`total_paid + amount`, `current_balance - amount`, and status `"paid"`
when the new balance is ≤ 0, else `"pending"`.  Returns `false` with the
state unchanged on a validation failure. -/
def recordPayment (st : PayState) (amount : ℚ) : Bool × PayState :=
  if amount < 1/100 then (false, st)
  else if st.debtor.current_balance < amount then (false, st)
  else
    let newTotalPaid := st.debtor.total_paid + amount
    let newBalance := st.debtor.current_balance - amount
    let newStatus := if newBalance ≤ 0 then "paid" else "pending"
    (true,
      ⟨{ st.debtor with
          total_paid := newTotalPaid
          current_balance := newBalance
          status := newStatus },
        st.payments ++ [amount]⟩)

/-- Run a sequence of payments through the payment modal, requiring each
one to be accepted. -/
def runPayments (st : PayState) : List ℚ → Option PayState
  | [] => some st
  | a :: as =>
    match recordPayment st a with
    | (true, st1) => runPayments st1 as
    | (false, _) => none

/-! ## Sales and stock (SalesPage handleSubmit, StockManagement) -/

/-- A row of the `stock` table (bookkeeping fields). -/
structure StockItem where
  id : Nat
  product_name : String
  quantity : ℤ
  total_sold : ℤ
  cost_price : ℚ
deriving DecidableEq

/-- A row of the `sales` table (bookkeeping fields). -/
structure Sale where
  product_name : String
  quantity : ℤ
  cost_price : ℚ
  selling_price : ℚ
  total_cost : ℚ
  revenue : ℚ
  profit_loss : ℚ
deriving DecidableEq

/-- The remote state the sales page acts on: the `stock` and `sales`
tables of the user. -/
structure SalesState where
  stock : List StockItem
  sales : List Sale
deriving DecidableEq

/-- `saleSchema` of SalesPage: product name 1–100 characters,
quantity ≥ 1, cost price ≥ 0.01, selling price ≥ 0.01 (the date and time
fields do not affect the bookkeeping and are omitted). -/
def saleFormValid (name : String) (q : ℤ) (c p : ℚ) : Bool :=
  1 ≤ name.length && name.length ≤ 100 && 1 ≤ q && 1/100 ≤ c && 1/100 ≤ p

/-- One character of case-insensitive matching (the ASCII range of
`toLowerCase`, which is all the `ilike` comparison needs here). -/
def lowerChar (c : Char) : Char :=
  if 'A' ≤ c ∧ c ≤ 'Z' then Char.ofNat (c.toNat + 32) else c

/-- Lower-case a product name for the case-insensitive `ilike` match. -/
def lowerStr (s : String) : String := ⟨s.data.map lowerChar⟩

/-- The `ilike` stock lookup of SalesPage: the first stock row whose
product name matches the (already trimmed) sale product name
case-insensitively (`maybeSingle`, modelled as the first match). -/
def findStock (stock : List StockItem) (name : String) : Option StockItem :=
  stock.find? (fun it => lowerStr it.product_name == lowerStr name)

/-- Outcome of `handleSubmit` on SalesPage as surfaced to the user. -/
inductive SaleResult
  | invalidForm
  | insufficientStock (available : ℤ)
  | ok
deriving DecidableEq

/-- `handleSubmit` of SalesPage.  `name` stands for
`formData.product_name.trim()` (the same trimmed string is used both for
the stock lookup and for the inserted sale row).  If a stock row matches,
a quantity above the stock quantity is refused; otherwise the stock row is
updated to `quantity - q` / `total_sold + q` before the sale row, with its
derived `total_cost`, `revenue`, `profit_loss`, is inserted.  If no stock
row matches, the sale row is inserted with no stock read or write. -/
def recordSale (st : SalesState) (name : String) (q : ℤ) (c p : ℚ) :
    SaleResult × SalesState :=
  if ¬ saleFormValid name q c p then (.invalidForm, st)
  else
    let totalCost : ℚ := (q : ℚ) * c
    let revenue : ℚ := (q : ℚ) * p
    let profitLoss : ℚ := revenue - totalCost
    let saleRow : Sale := ⟨name, q, c, p, totalCost, revenue, profitLoss⟩
    match findStock st.stock name with
    | some item =>
      if item.quantity < q then (.insufficientStock item.quantity, st)
      else
        let stock1 := st.stock.map (fun it =>
          if it.id = item.id then
            { it with quantity := it.quantity - q, total_sold := it.total_sold + q }
          else it)
        (.ok, ⟨stock1, st.sales ++ [saleRow]⟩)
    | none => (.ok, ⟨st.stock, st.sales ++ [saleRow]⟩)

/-- `handleSubmit` of StockManagement: `stockSchema` requires product name
1–100 characters, quantity ≥ 1, cost price ≥ 0.01; on success a stock row
is inserted (`total_sold` takes the table default 0). -/
def addStock (stock : List StockItem) (id : Nat) (name : String) (q : ℤ)
    (c : ℚ) : List StockItem :=
  if 1 ≤ name.length && name.length ≤ 100 && 1 ≤ q && 1/100 ≤ c then
    stock ++ [⟨id, name, q, 0, c⟩]
  else stock

/-- `handleRestock` of StockManagement: with a valid added quantity
(`addQuantity ≥ 1`), the row with the restocked item's id is set to
`restockItem.quantity + addQuantity` (computed from the client-side copy
of the row). -/
def restock (stock : List StockItem) (item : StockItem) (addQty : ℤ) :
    List StockItem :=
  if addQty < 1 then stock
  else stock.map (fun it =>
    if it.id = item.id then { it with quantity := item.quantity + addQty }
    else it)

/-! ## CSV export (`exportToCsv` in `src/lib/exportCsv.ts`)

Field values are the JavaScript values stored in the row objects; the
serializer distinguishes only `null`, `undefined` and everything else
(which is passed through `String(value)`).  `vStr s` stands for a
non-null value whose `String()` image is the character list `s`.  Strings
are modelled as `List Char` so that the quoting state machine can be
reasoned about by structural induction. -/

/-- A JavaScript field value as seen by `exportToCsv`. -/
inductive JSValue
  | vNull
  | vUndefined
  | vStr (s : List Char)
deriving DecidableEq

/-- `String(value)` for a field value (`String(null) = "null"`,
`String(undefined) = "undefined"`). -/
def jsString : JSValue → List Char
  | .vNull => ['n', 'u', 'l', 'l']
  | .vUndefined => ['u', 'n', 'd', 'e', 'f', 'i', 'n', 'e', 'd']
  | .vStr s => s

/-- A row object: an association list from keys to values. -/
def CsvRow : Type := List (List Char × JSValue)

/-- `row[key]`: the first binding of the key, `undefined` when absent. -/
def lookupField (row : CsvRow) (key : List Char) : JSValue :=
  match row.find? (fun kv => kv.1 == key) with
  | some kv => kv.2
  | none => .vUndefined

/-- Whether the serializer quotes a field:
`stringValue.includes(",") || stringValue.includes('"') ||
stringValue.includes("\n")`. -/
def needsQuote (s : List Char) : Bool :=
  s.any (fun c => c == ',' || c == '"' || c == '\n')

/-- `stringValue.replace(/"/g, '""')`: double every double quote. -/
def escQuotes : List Char → List Char
  | [] => []
  | c :: cs => if c = '"' then '"' :: '"' :: escQuotes cs else c :: escQuotes cs

/-- Serialize one non-null field: wrap in quotes with doubled inner quotes
when the value contains a comma, quote or newline, else pass through. -/
def escapeField (s : List Char) : List Char :=
  if needsQuote s then '"' :: (escQuotes s ++ ['"']) else s

/-- Serialize one cell: `null` and `undefined` become the empty string,
anything else goes through `String(value)` and `escapeField`. -/
def csvCell : JSValue → List Char
  | .vNull => []
  | .vUndefined => []
  | .vStr s => escapeField s

/-- `parts.join(sep)` for a one-character separator. -/
def joinSep (sep : Char) : List (List Char) → List Char
  | [] => []
  | [s] => s
  | s :: ss => s ++ sep :: joinSep sep ss

/-- `exportToCsv` (the `csvContent` it builds): `none` when the row list
is empty (the source returns before producing anything); otherwise the
header line `keys.join(",")` followed by one line per row, each line the
serialized cells joined by commas, lines joined by `"\n"`. -/
def exportToCsv (keys : List (List Char)) (rows : List CsvRow) :
    Option (List Char) :=
  if rows.isEmpty then none
  else
    some (joinSep '\n'
      (joinSep ',' keys ::
        rows.map (fun row =>
          joinSep ',' (keys.map (fun k => csvCell (lookupField row k))))))

/-! ### A CSV reader for the round-trip property

The reader follows the quoting rule the serializer uses: records are
separated by newlines outside quotes, fields by commas outside quotes, and
a field starting with a double quote is unwrapped with doubled quotes
collapsed. -/

/-- Split at every occurrence of `sep` that lies outside double quotes;
`q` is the current in-quotes state (quote parity). -/
def splitQuoted (sep : Char) : Bool → List Char → List (List Char)
  | _, [] => [[]]
  | q, c :: cs =>
    if c = sep ∧ q = false then
      [] :: splitQuoted sep false cs
    else
      match splitQuoted sep (if c = '"' then !q else q) cs with
      | [] => [[c]]
      | f :: fs => (c :: f) :: fs

/-- Collapse doubled double quotes. -/
def unescQuotes : List Char → List Char
  | [] => []
  | [c] => [c]
  | c₁ :: c₂ :: cs =>
    if c₁ = '"' ∧ c₂ = '"' then '"' :: unescQuotes cs
    else c₁ :: unescQuotes (c₂ :: cs)

/-- Undo the quoting of one field: a field starting with a double quote is
stripped of its surrounding quotes and has its doubled quotes collapsed. -/
def unquoteField (f : List Char) : List Char :=
  if f.head? = some '"' then unescQuotes f.tail.dropLast else f

/-- Parse a CSV text into its records and fields. -/
def parseCsv (s : List Char) : List (List (List Char)) :=
  (splitQuoted '\n' false s).map (fun r =>
    (splitQuoted ',' false r).map unquoteField)

/-- The string a cell should parse back to: the `String()` image of the
value for a non-null field, the empty string for `null`/`undefined`. -/
def cellData : JSValue → List Char
  | .vNull => []
  | .vUndefined => []
  | .vStr s => s

/-- The quote parity after scanning a character list: `q` flips at every
double quote. -/
def scanQ : Bool → List Char → Bool
  | q, [] => q
  | q, c :: cs => scanQ (if c = '"' then !q else q) cs

/-- Whether a character list contains the separator outside quotes
(starting from quote parity `q`). -/
def hasTopSep (sep : Char) : Bool → List Char → Bool
  | _, [] => false
  | q, c :: cs =>
    if c = sep ∧ q = false then true
    else hasTopSep sep (if c = '"' then !q else q) cs

/-- Prepend `s` onto the first element of a field list (used to state how
`splitQuoted` acts on an appended prefix without separators). -/
def consHead (s : List Char) : List (List Char) → List (List Char)
  | [] => [s]
  | f :: fs => (s ++ f) :: fs

/-- The bookkeeping invariant of a debtor row with grand total `G`:
the balance is the grand total minus the total paid and the status is
`"paid"` exactly on a non-positive balance. -/
def debtorInvariant (G : ℚ) (d : Debtor) : Prop :=
  d.grand_total = G ∧
  d.current_balance = G - d.total_paid ∧
  d.status = (if d.current_balance ≤ 0 then "paid" else "pending")

/-- The bundle-form invariant: every item carries
`total = quantity * selling_price` and the grand total is the sum of the
item totals. -/
def bundleInvariant (f : BundleForm) : Prop :=
  (∀ it ∈ f.items, it.total = (it.quantity : ℚ) * it.selling_price) ∧
  f.grand_total = (f.items.map DebtItem.total).sum

/-- All stock rows have a nonnegative quantity. -/
def stockNonneg (stock : List StockItem) : Prop :=
  ∀ it ∈ stock, 0 ≤ it.quantity

/-! ## Theorems: sales and stock -/

/-- C3. Every successfully recorded sale appends a sale row whose
derived fields satisfy `total_cost = quantity * cost_price`,
`revenue = quantity * selling_price`, and
`profit_loss = revenue - total_cost`, computed at insert time. -/
theorem recordSale_derivedFields (st : SalesState) (name : String) (q : ℤ)
    (c p : ℚ) (hok : (recordSale st name q c p).1 = .ok) :
    (recordSale st name q c p).2.sales =
      st.sales ++ [{ product_name := name, quantity := q, cost_price := c,
                     selling_price := p,
                     total_cost := (q : ℚ) * c,
                     revenue := (q : ℚ) * p,
                     profit_loss := (q : ℚ) * p - (q : ℚ) * c }] := by
  unfold recordSale at hok ⊢
  split at hok
  · exact absurd hok (by simp)
  · rename_i hvalid
    simp only [if_neg hvalid]
    cases hf : findStock st.stock name with
    | none => simp [hf]
    | some item =>
      simp only [hf] at hok ⊢
      split at hok
      · exact absurd hok (by simp)
      · rename_i hq
        simp only [if_neg hq]

/-- Witness for C3 at a concrete sale. -/
theorem recordSale_derivedFields_witness :
    (recordSale ⟨[], []⟩ "Rice" 3 20 30).1 = .ok ∧
    (recordSale ⟨[], []⟩ "Rice" 3 20 30).2.sales =
      [] ++ [{ product_name := "Rice", quantity := 3, cost_price := 20,
               selling_price := 30,
               total_cost := (3 : ℚ) * 20,
               revenue := (3 : ℚ) * 30,
               profit_loss := (3 : ℚ) * 30 - (3 : ℚ) * 20 }] := by
  have hv : saleFormValid "Rice" 3 20 30 = true := by
    norm_num [saleFormValid] <;> decide
  have hok : (recordSale ⟨[], []⟩ "Rice" 3 20 30).1 = .ok := by
    simp [recordSale, hv, findStock]
  exact ⟨hok, recordSale_derivedFields ⟨[], []⟩ "Rice" 3 20 30 hok⟩

/-- C2. For a sale of quantity `q` against a matching stock row of
quantity `s`: if `q ≤ s` the sale succeeds, the matched row becomes
`s - q` with `total_sold + q` (other rows untouched) and the sale row is
appended; if `q > s` the sale is rejected with nothing inserted and the
state unchanged. -/
theorem recordSale_stockGuard (st : SalesState) (name : String) (q : ℤ)
    (c p : ℚ) (item : StockItem)
    (hvalid : saleFormValid name q c p = true)
    (hfind : findStock st.stock name = some item) :
    (q ≤ item.quantity →
      (recordSale st name q c p).1 = .ok ∧
      { item with quantity := item.quantity - q,
                  total_sold := item.total_sold + q } ∈
        (recordSale st name q c p).2.stock ∧
      (∀ it ∈ st.stock, it.id ≠ item.id → it ∈ (recordSale st name q c p).2.stock) ∧
      (recordSale st name q c p).2.sales =
        st.sales ++ [{ product_name := name, quantity := q, cost_price := c,
                       selling_price := p, total_cost := (q : ℚ) * c,
                       revenue := (q : ℚ) * p,
                       profit_loss := (q : ℚ) * p - (q : ℚ) * c }]) ∧
    (item.quantity < q →
      (recordSale st name q c p).1 = .insufficientStock item.quantity ∧
      (recordSale st name q c p).2 = st) := by
  have hmem : item ∈ st.stock := List.mem_of_find?_eq_some hfind
  constructor
  · intro hq
    have hq' : ¬ item.quantity < q := not_lt.mpr hq
    have hrec : recordSale st name q c p =
        (.ok, ⟨st.stock.map (fun it =>
            if it.id = item.id then
              { it with quantity := it.quantity - q,
                        total_sold := it.total_sold + q }
            else it),
          st.sales ++ [{ product_name := name, quantity := q, cost_price := c,
                         selling_price := p, total_cost := (q : ℚ) * c,
                         revenue := (q : ℚ) * p,
                         profit_loss := (q : ℚ) * p - (q : ℚ) * c }]⟩) := by
      simp [recordSale, hvalid, hfind, hq']
    rw [hrec]
    refine ⟨rfl, ?_, ?_, rfl⟩
    · have h := List.mem_map_of_mem
        (fun it => if it.id = item.id then
          { it with quantity := it.quantity - q,
                    total_sold := it.total_sold + q } else it) hmem
      simpa using h
    · intro it hit hne
      have h := List.mem_map_of_mem
        (fun it => if it.id = item.id then
          { it with quantity := it.quantity - q,
                    total_sold := it.total_sold + q } else it) hit
      simpa [hne] using h
  · intro hq
    have hrec : recordSale st name q c p = (.insufficientStock item.quantity, st) := by
      simp [recordSale, hvalid, hfind, hq]
    rw [hrec]
    exact ⟨rfl, rfl⟩

/-- Witness for C2: stock 10, sale of 3 succeeds and deducts; the same
theorem also covers the rejection branch (vacuously here). -/
theorem recordSale_stockGuard_witness :
    ((3 : ℤ) ≤ 10 →
      (recordSale ⟨[⟨1, "Rice", 10, 2, 50⟩], []⟩ "Rice" 3 20 30).1 = .ok ∧
      ({ id := 1, product_name := "Rice", quantity := 10 - 3,
         total_sold := 2 + 3, cost_price := 50 } : StockItem) ∈
        (recordSale ⟨[⟨1, "Rice", 10, 2, 50⟩], []⟩ "Rice" 3 20 30).2.stock ∧
      (∀ it ∈ [(⟨1, "Rice", 10, 2, 50⟩ : StockItem)], it.id ≠ 1 →
        it ∈ (recordSale ⟨[⟨1, "Rice", 10, 2, 50⟩], []⟩ "Rice" 3 20 30).2.stock) ∧
      (recordSale ⟨[⟨1, "Rice", 10, 2, 50⟩], []⟩ "Rice" 3 20 30).2.sales =
        [] ++ [{ product_name := "Rice", quantity := 3, cost_price := 20,
                 selling_price := 30, total_cost := (3 : ℚ) * 20,
                 revenue := (3 : ℚ) * 30,
                 profit_loss := (3 : ℚ) * 30 - (3 : ℚ) * 20 }]) ∧
    ((10 : ℤ) < 3 →
      (recordSale ⟨[⟨1, "Rice", 10, 2, 50⟩], []⟩ "Rice" 3 20 30).1 =
        .insufficientStock 10 ∧
      (recordSale ⟨[⟨1, "Rice", 10, 2, 50⟩], []⟩ "Rice" 3 20 30).2 =
        ⟨[⟨1, "Rice", 10, 2, 50⟩], []⟩) :=
  recordSale_stockGuard ⟨[⟨1, "Rice", 10, 2, 50⟩], []⟩ "Rice" 3 20 30
    ⟨1, "Rice", 10, 2, 50⟩ (by norm_num [saleFormValid] <;> decide) rfl

/-- C9. When no stock row matches the sale's product name
case-insensitively, the stock-availability check is bypassed: the sale row
is inserted for any validated quantity and the stock table is untouched. -/
theorem recordSale_noStockMatch (st : SalesState) (name : String) (q : ℤ)
    (c p : ℚ)
    (hvalid : saleFormValid name q c p = true)
    (hfind : findStock st.stock name = none) :
    (recordSale st name q c p).1 = .ok ∧
    (recordSale st name q c p).2.stock = st.stock ∧
    (recordSale st name q c p).2.sales =
      st.sales ++ [{ product_name := name, quantity := q, cost_price := c,
                     selling_price := p, total_cost := (q : ℚ) * c,
                     revenue := (q : ℚ) * p,
                     profit_loss := (q : ℚ) * p - (q : ℚ) * c }] := by
  have hrec : recordSale st name q c p =
      (.ok, ⟨st.stock,
        st.sales ++ [{ product_name := name, quantity := q, cost_price := c,
                       selling_price := p, total_cost := (q : ℚ) * c,
                       revenue := (q : ℚ) * p,
                       profit_loss := (q : ℚ) * p - (q : ℚ) * c }]⟩) := by
    simp [recordSale, hvalid, hfind]
  rw [hrec]
  exact ⟨rfl, rfl, rfl⟩

/-- Witness for C9: a sale of 1000 units of an unstocked product is
accepted with no stock change. -/
theorem recordSale_noStockMatch_witness :
    (recordSale ⟨[⟨1, "Beans", 4, 0, 10⟩], []⟩ "Rice" 1000 20 30).1 = .ok ∧
    (recordSale ⟨[⟨1, "Beans", 4, 0, 10⟩], []⟩ "Rice" 1000 20 30).2.stock =
      [⟨1, "Beans", 4, 0, 10⟩] ∧
    (recordSale ⟨[⟨1, "Beans", 4, 0, 10⟩], []⟩ "Rice" 1000 20 30).2.sales =
      [] ++ [{ product_name := "Rice", quantity := 1000, cost_price := 20,
               selling_price := 30, total_cost := (1000 : ℚ) * 20,
               revenue := (1000 : ℚ) * 30,
               profit_loss := (1000 : ℚ) * 30 - (1000 : ℚ) * 20 }] :=
  recordSale_noStockMatch ⟨[⟨1, "Beans", 4, 0, 10⟩], []⟩ "Rice" 1000 20 30
    (by norm_num [saleFormValid] <;> decide) rfl

/-- C5. Every quantity-changing stock operation — inserting a new
stock row, restocking, and the sale-time deduction — preserves
`quantity ≥ 0` (row ids are distinct, as they are primary keys). -/
theorem stockOps_preserve_nonneg (stock : List StockItem)
    (hnn : stockNonneg stock)
    (hids : (stock.map StockItem.id).Nodup) :
    (∀ id name q c, stockNonneg (addStock stock id name q c)) ∧
    (∀ item ∈ stock, ∀ aq, stockNonneg (restock stock item aq)) ∧
    (∀ sales name q c p,
      stockNonneg (recordSale ⟨stock, sales⟩ name q c p).2.stock) := by
  refine ⟨?_, ?_, ?_⟩
  · intro id name q c it hit
    unfold addStock at hit
    split at hit
    · rename_i hcond
      rcases List.mem_append.mp hit with h | h
      · exact hnn it h
      · have hq : 1 ≤ q := by
          simp only [Bool.and_eq_true, decide_eq_true_eq] at hcond
          exact hcond.1.2
        simp only [List.mem_singleton] at h
        subst h
        show (0 : ℤ) ≤ q
        omega
    · exact hnn it hit
  · intro item hitem aq it hit
    unfold restock at hit
    split at hit
    · exact hnn it hit
    · rename_i haq
      rcases List.mem_map.mp hit with ⟨it0, hit0, heq⟩
      by_cases hid : it0.id = item.id
      · have h0 : 0 ≤ item.quantity := hnn item hitem
        simp only [if_pos hid] at heq
        subst heq
        show 0 ≤ item.quantity + aq
        omega
      · simp only [if_neg hid] at heq
        subst heq
        exact hnn it0 hit0
  · intro sales name q c p it hit
    unfold recordSale at hit
    split at hit
    · exact hnn it hit
    · cases hf : findStock stock name with
      | none =>
        simp only [hf] at hit
        exact hnn it hit
      | some item =>
        have hmem : item ∈ stock := List.mem_of_find?_eq_some hf
        simp only [hf] at hit
        split at hit
        · exact hnn it hit
        · rename_i hq
          rcases List.mem_map.mp hit with ⟨it0, hit0, heq⟩
          by_cases hid : it0.id = item.id
          · have hsame : it0 = item :=
              List.inj_on_of_nodup_map hids hit0 hmem hid
            simp only [if_pos hid] at heq
            subst heq
            show 0 ≤ it0.quantity - q
            rw [hsame]
            omega
          · simp only [if_neg hid] at heq
            subst heq
            exact hnn it0 hit0

/-- Witness for C5 on a one-row stock list. -/
theorem stockOps_preserve_nonneg_witness :
    (∀ id name q c,
      stockNonneg (addStock [⟨1, "Rice", 10, 2, 50⟩] id name q c)) ∧
    (∀ item ∈ [(⟨1, "Rice", 10, 2, 50⟩ : StockItem)], ∀ aq,
      stockNonneg (restock [⟨1, "Rice", 10, 2, 50⟩] item aq)) ∧
    (∀ sales name q c p,
      stockNonneg
        (recordSale ⟨[⟨1, "Rice", 10, 2, 50⟩], sales⟩ name q c p).2.stock) :=
  stockOps_preserve_nonneg [⟨1, "Rice", 10, 2, 50⟩]
    (by intro it hit; simp only [List.mem_singleton] at hit; subst hit; decide)
    (by decide)

/-! ## Theorems: debtors and payments -/

/-- C8. The payment modal performs no writes when the entered amount
is below 0.01 or above the debtor's current balance: it returns a
validation failure and both the payments list and the debtor row are
exactly as before. -/
theorem recordPayment_rejectsInvalid (st : PayState) (amount : ℚ)
    (h : amount < 1/100 ∨ st.debtor.current_balance < amount) :
    recordPayment st amount = (false, st) := by
  unfold recordPayment
  by_cases h1 : amount < 1/100
  · rw [if_pos h1]
  · rcases h with h | h2
    · exact absurd h h1
    · rw [if_neg h1, if_pos h2]

/-- Witness for C8: a zero amount (below the 0.01 minimum) is rejected
with the state untouched. -/
theorem recordPayment_rejectsInvalid_witness :
    recordPayment ⟨⟨1000, 0, 1000, "pending"⟩, []⟩ 0 =
      (false, ⟨⟨1000, 0, 1000, "pending"⟩, []⟩) :=
  recordPayment_rejectsInvalid ⟨⟨1000, 0, 1000, "pending"⟩, []⟩ 0
    (Or.inl (by norm_num))

/-- One accepted payment preserves the debtor invariant and adds its
amount to `total_paid`. -/
theorem recordPayment_invariant (G : ℚ) (st st' : PayState) (a : ℚ)
    (h : recordPayment st a = (true, st'))
    (hinv : debtorInvariant G st.debtor) :
    debtorInvariant G st'.debtor ∧
    st'.debtor.total_paid = st.debtor.total_paid + a := by
  unfold recordPayment at h
  split at h
  · exact absurd (congrArg Prod.fst h) (by simp)
  · split at h
    · exact absurd (congrArg Prod.fst h) (by simp)
    · obtain ⟨hG, hbal, -⟩ := hinv
      have h2 := congrArg Prod.snd h
      simp only at h2
      subst h2
      refine ⟨⟨hG, ?_, rfl⟩, rfl⟩
      simp only
      rw [hbal]
      ring

/-- A whole accepted payment sequence preserves the debtor invariant and
accumulates the sum of the amounts into `total_paid`. -/
theorem runPayments_invariant (G : ℚ) (as : List ℚ) (st st' : PayState)
    (h : runPayments st as = some st')
    (hinv : debtorInvariant G st.debtor) :
    debtorInvariant G st'.debtor ∧
    st'.debtor.total_paid = st.debtor.total_paid + as.sum := by
  induction as generalizing st with
  | nil =>
    simp only [runPayments, Option.some_inj] at h
    subst h
    simpa using hinv
  | cons a as ih =>
    simp only [runPayments] at h
    cases hrec : recordPayment st a with
    | mk ok st1 =>
      rw [hrec] at h
      cases ok with
      | false => exact absurd h (by simp)
      | true =>
        obtain ⟨hinv1, hpaid1⟩ := recordPayment_invariant G st st1 a hrec hinv
        obtain ⟨hinv2, hpaid2⟩ := ih st1 h hinv1
        refine ⟨hinv2, ?_⟩
        rw [hpaid2, hpaid1, List.sum_cons]
        ring

/-- C1. A debtor created with grand total `G` and initial payment
`p0`, after any sequence of payments `as` accepted by the payment modal,
satisfies `total_paid = p0 + Σ as`,
`current_balance = G - total_paid`, and has status `"paid"` exactly when
`current_balance ≤ 0` and `"pending"` otherwise. -/
theorem paymentSequence_bookkeeping
    (st0 : Store) (name phone : String) (f : BundleForm) (p0 : ℚ)
    (as : List ℚ) (st1 : Store) (i : Nat) (d0 : Debtor)
    (payments0 : List ℚ) (pst : PayState)
    (hcreate : createDebtor st0 name phone f p0 false false false =
      (.success, st1))
    (hrow : st1.debtors.getLast? = some (i, d0))
    (hrun : runPayments ⟨d0, payments0⟩ as = some pst) :
    pst.debtor.total_paid = p0 + as.sum ∧
    pst.debtor.current_balance = f.grand_total - pst.debtor.total_paid ∧
    pst.debtor.status =
      (if pst.debtor.current_balance ≤ 0 then "paid" else "pending") := by
  have hd0 : d0 = ⟨f.grand_total, p0, f.grand_total - p0,
      if f.grand_total - p0 ≤ 0 then "paid" else "pending"⟩ := by
    unfold createDebtor at hcreate
    split at hcreate
    · exact absurd (congrArg Prod.fst hcreate) (by simp)
    · split at hcreate
      · exact absurd (congrArg Prod.fst hcreate) (by simp)
      · split at hcreate
        · exact absurd (congrArg Prod.fst hcreate) (by simp)
        · split at hcreate
          · exact absurd (congrArg Prod.fst hcreate) (by simp)
          · have h2 := congrArg Prod.snd hcreate
            simp only [Bool.false_eq_true, if_false] at h2
            split at h2 <;>
            · rw [← h2] at hrow
              simp only [List.getLast?_concat, Option.some_inj,
                Prod.mk.injEq] at hrow
              exact hrow.2.symm
  have hinv0 : debtorInvariant f.grand_total d0 := by
    rw [hd0]
    exact ⟨rfl, rfl, rfl⟩
  obtain ⟨⟨hG, hbal, hstat⟩, hpaid⟩ :=
    runPayments_invariant f.grand_total as ⟨d0, payments0⟩ pst hrun hinv0
  have hpaid0 : d0.total_paid = p0 := by rw [hd0]
  refine ⟨?_, ?_, hstat⟩
  · rw [hpaid]
    simp only at hpaid0 ⊢
    rw [hpaid0]
  · rw [hbal]

/-- Witness for C1: the spec's running example — grand total 1000,
no initial payment, then payments 400 and 600. -/
theorem paymentSequence_bookkeeping_witness :
    ((runPayments ⟨⟨1000, 0, 1000, "pending"⟩, []⟩ [400, 600]).getD
        ⟨⟨0, 0, 0, ""⟩, []⟩).debtor.total_paid = 0 + [(400 : ℚ), 600].sum ∧
    ((runPayments ⟨⟨1000, 0, 1000, "pending"⟩, []⟩ [400, 600]).getD
        ⟨⟨0, 0, 0, ""⟩, []⟩).debtor.current_balance =
      (1000 : ℚ) -
        ((runPayments ⟨⟨1000, 0, 1000, "pending"⟩, []⟩ [400, 600]).getD
          ⟨⟨0, 0, 0, ""⟩, []⟩).debtor.total_paid ∧
    ((runPayments ⟨⟨1000, 0, 1000, "pending"⟩, []⟩ [400, 600]).getD
        ⟨⟨0, 0, 0, ""⟩, []⟩).debtor.status =
      (if ((runPayments ⟨⟨1000, 0, 1000, "pending"⟩, []⟩ [400, 600]).getD
            ⟨⟨0, 0, 0, ""⟩, []⟩).debtor.current_balance ≤ 0
        then "paid" else "pending") := by
  have hrun : runPayments ⟨⟨1000, 0, 1000, "pending"⟩, []⟩ [400, 600] =
      some ⟨⟨1000, 1000, 0, "paid"⟩, [400, 600]⟩ := by
    norm_num [runPayments, recordPayment]
  have h := paymentSequence_bookkeeping ⟨[], [], []⟩ "John Smith"
    "08012345678" ⟨[⟨"Rice", 1, 1000, 1000⟩], 1000⟩ 0 [400, 600]
    ⟨[(0, ⟨1000, 0, 1000, "pending"⟩)], [(0, ⟨"Rice", 1, 1000, 1000⟩)], []⟩
    0 ⟨1000, 0, 1000, "pending"⟩ [] ⟨⟨1000, 1000, 0, "paid"⟩, [400, 600]⟩
    (by norm_num [createDebtor, customerValid] <;> decide) rfl hrun
  rw [hrun]
  exact h

/-- Adding or removing a bundle item preserves the bundle invariant. -/
theorem applyBundleOp_invariant (f : BundleForm) (op : BundleOp)
    (hinv : bundleInvariant f) : bundleInvariant (applyBundleOp f op) := by
  obtain ⟨hitems, hsum⟩ := hinv
  cases op with
  | add name q p =>
    by_cases hv : itemValid name q p = true
    · have h : applyBundleOp f (.add name q p) =
          ⟨f.items ++ [(⟨name, q, p, (q : ℚ) * p⟩ : DebtItem)],
            ((f.items ++ [(⟨name, q, p, (q : ℚ) * p⟩ : DebtItem)]).map
              DebtItem.total).sum⟩ := by
        simp [applyBundleOp, addItemToBundle, hv]
      rw [h]
      refine ⟨?_, rfl⟩
      intro it hit
      rcases List.mem_append.mp hit with hmem | hmem
      · exact hitems it hmem
      · simp only [List.mem_singleton] at hmem
        subst hmem
        rfl
    · have h : applyBundleOp f (.add name q p) = f := by
        simp [applyBundleOp, addItemToBundle, hv]
      rw [h]
      exact ⟨hitems, hsum⟩
  | remove i =>
    have h : applyBundleOp f (.remove i) =
        ⟨f.items.eraseIdx i,
          ((f.items.eraseIdx i).map DebtItem.total).sum⟩ := rfl
    rw [h]
    refine ⟨?_, rfl⟩
    intro it hit
    exact hitems it ((f.items.eraseIdx_sublist i).subset hit)

/-- Any bundle built from the empty form satisfies the invariant. -/
theorem buildBundle_invariant (ops : List BundleOp) :
    bundleInvariant (buildBundle ops) := by
  have h : ∀ f : BundleForm, bundleInvariant f →
      bundleInvariant (ops.foldl applyBundleOp f) := by
    induction ops with
    | nil => intro f hf; exact hf
    | cons op ops ih =>
      intro f hf
      exact ih (applyBundleOp f op) (applyBundleOp_invariant f op hf)
  exact h ⟨[], 0⟩ ⟨by simp, rfl⟩

/-- C7. Every debt item added to the bundle stores
`total = quantity * selling_price`, and the debtor row created from the
bundle stores a grand total equal to the sum of the totals of the items
in the bundle. -/
theorem debtItemTotals
    (ops : List BundleOp) (st0 : Store) (name phone : String) (p0 : ℚ)
    (st1 : Store) (i : Nat) (d0 : Debtor)
    (hcreate : createDebtor st0 name phone (buildBundle ops) p0
      false false false = (.success, st1))
    (hrow : st1.debtors.getLast? = some (i, d0)) :
    (∀ it ∈ (buildBundle ops).items,
      it.total = (it.quantity : ℚ) * it.selling_price) ∧
    d0.grand_total = ((buildBundle ops).items.map DebtItem.total).sum := by
  obtain ⟨hitems, hsum⟩ := buildBundle_invariant ops
  refine ⟨hitems, ?_⟩
  have hG : d0.grand_total = (buildBundle ops).grand_total := by
    unfold createDebtor at hcreate
    split at hcreate
    · exact absurd (congrArg Prod.fst hcreate) (by simp)
    · split at hcreate
      · exact absurd (congrArg Prod.fst hcreate) (by simp)
      · split at hcreate
        · exact absurd (congrArg Prod.fst hcreate) (by simp)
        · split at hcreate
          · exact absurd (congrArg Prod.fst hcreate) (by simp)
          · have h2 := congrArg Prod.snd hcreate
            simp only [Bool.false_eq_true, if_false] at h2
            split at h2 <;>
            · rw [← h2] at hrow
              simp only [List.getLast?_concat, Option.some_inj,
                Prod.mk.injEq] at hrow
              rw [← hrow.2]
  rw [hG, hsum]

/-- Witness for C7: a two-item bundle (with one item added and removed
again) created as a debtor. -/
theorem debtItemTotals_witness :
    (∀ it ∈ (buildBundle [.add "Rice" 2 300, .add "Oil" 1 500,
        .add "Salt" 4 100, .remove 2]).items,
      it.total = (it.quantity : ℚ) * it.selling_price) ∧
    (⟨1100, 0, 1100, "pending"⟩ : Debtor).grand_total =
      (((buildBundle [.add "Rice" 2 300, .add "Oil" 1 500,
          .add "Salt" 4 100, .remove 2]).items.map DebtItem.total).sum) := by
  have hv1 : itemValid "Rice" 2 300 = true := by
    norm_num [itemValid] <;> decide
  have hv2 : itemValid "Oil" 1 500 = true := by
    norm_num [itemValid] <;> decide
  have hv3 : itemValid "Salt" 4 100 = true := by
    norm_num [itemValid] <;> decide
  have hbundle : buildBundle [.add "Rice" 2 300, .add "Oil" 1 500,
      .add "Salt" 4 100, .remove 2] =
      ⟨[⟨"Rice", 2, 300, 600⟩, ⟨"Oil", 1, 500, 500⟩], 1100⟩ := by
    norm_num [buildBundle, applyBundleOp, addItemToBundle,
      removeItemFromBundle, hv1, hv2, hv3, List.foldl, List.eraseIdx]
  exact debtItemTotals [.add "Rice" 2 300, .add "Oil" 1 500,
      .add "Salt" 4 100, .remove 2]
    ⟨[], [], []⟩ "John Smith" "08012345678" 0
    ⟨[(0, ⟨1100, 0, 1100, "pending"⟩)],
      [(0, ⟨"Rice", 2, 300, 600⟩), (0, ⟨"Oil", 1, 500, 500⟩)], []⟩
    0 ⟨1100, 0, 1100, "pending"⟩
    (by rw [hbundle]; norm_num [createDebtor, customerValid] <;> decide) rfl

/-- C6, counterexample. The claim also asserts that a failing
initial-payment insert makes the operation "stop with an error".  It does
not: the source never reads the error of the payment insert.  Concretely,
creating a debtor (grand total 1000, initial payment 500) with the payment
insert failing still returns `success`, with the debtor and item rows
written and the payment row silently missing. -/
theorem createDebtor_paymentErrorIgnored :
    (createDebtor ⟨[], [], []⟩ "John Smith" "08012345678"
        ⟨[⟨"Rice", 1, 1000, 1000⟩], 1000⟩ 500 false false true).1 =
      CreateResult.success ∧
    CreateResult.success ≠ CreateResult.validationFailed ∧
    CreateResult.success ≠ CreateResult.debtorInsertFailed ∧
    CreateResult.success ≠ CreateResult.itemsInsertFailed ∧
    (createDebtor ⟨[], [], []⟩ "John Smith" "08012345678"
        ⟨[⟨"Rice", 1, 1000, 1000⟩], 1000⟩ 500 false false true).2.payments =
      [] ∧
    (createDebtor ⟨[], [], []⟩ "John Smith" "08012345678"
        ⟨[⟨"Rice", 1, 1000, 1000⟩], 1000⟩ 500 false false true).2.debtors =
      [(0, ⟨1000, 500, 500, "pending"⟩)] := by
  have hv : customerValid "John Smith" "08012345678" = true := by decide
  have h : createDebtor ⟨[], [], []⟩ "John Smith" "08012345678"
      ⟨[⟨"Rice", 1, 1000, 1000⟩], 1000⟩ 500 false false true =
      (CreateResult.success,
        ⟨[(0, ⟨1000, 500, 500, "pending"⟩)],
          [(0, ⟨"Rice", 1, 1000, 1000⟩)], []⟩) := by
    norm_num [createDebtor, hv]
  rw [h]
  refine ⟨rfl, by decide, by decide, by decide, rfl, rfl⟩

/-- C6, amended. Debtor creation is not atomic and has no rollback:
if the debt-items insert fails after the debtor insert succeeded, the
operation stops with an error while the debtor row remains and no item or
payment row is written; if the initial-payment insert fails after the two
earlier inserts succeeded, the earlier writes likewise remain, but the
payment-insert error is ignored and the operation reports success with
the payment row missing. -/
theorem createDebtor_nonAtomic
    (st0 : Store) (name phone : String) (f : BundleForm) (p0 : ℚ)
    (hv : customerValid name phone = true) (hitems : f.items.isEmpty = false)
    (hp0 : 0 ≤ p0) (hle : p0 ≤ f.grand_total) :
    ((createDebtor st0 name phone f p0 false true false).1 =
        .itemsInsertFailed ∧
      (createDebtor st0 name phone f p0 false true false).2.debtors =
        st0.debtors ++ [(st0.debtors.length,
          ⟨f.grand_total, p0, f.grand_total - p0,
            if f.grand_total - p0 ≤ 0 then "paid" else "pending"⟩)] ∧
      (createDebtor st0 name phone f p0 false true false).2.debt_items =
        st0.debt_items ∧
      (createDebtor st0 name phone f p0 false true false).2.payments =
        st0.payments) ∧
    (0 < p0 →
      (createDebtor st0 name phone f p0 false false true).1 = .success ∧
      (createDebtor st0 name phone f p0 false false true).2.debtors =
        st0.debtors ++ [(st0.debtors.length,
          ⟨f.grand_total, p0, f.grand_total - p0,
            if f.grand_total - p0 ≤ 0 then "paid" else "pending"⟩)] ∧
      (createDebtor st0 name phone f p0 false false true).2.debt_items =
        st0.debt_items ++
          f.items.map (fun it => (st0.debtors.length, it)) ∧
      (createDebtor st0 name phone f p0 false false true).2.payments =
        st0.payments) := by
  have hnp : ¬ p0 < 0 := not_lt.mpr hp0
  have hng : ¬ f.grand_total < p0 := not_lt.mpr hle
  constructor
  · have h : createDebtor st0 name phone f p0 false true false =
        (.itemsInsertFailed,
          { st0 with debtors := st0.debtors ++ [(st0.debtors.length,
              ⟨f.grand_total, p0, f.grand_total - p0,
                if f.grand_total - p0 ≤ 0 then "paid" else "pending"⟩)] }) := by
      simp [createDebtor, hv, hitems, hnp, hng]
    rw [h]
    exact ⟨rfl, rfl, rfl, rfl⟩
  · intro hpos
    have h : createDebtor st0 name phone f p0 false false true =
        (.success,
          { st0 with
              debtors := st0.debtors ++ [(st0.debtors.length,
                ⟨f.grand_total, p0, f.grand_total - p0,
                  if f.grand_total - p0 ≤ 0 then "paid" else "pending"⟩)],
              debt_items := st0.debt_items ++
                f.items.map (fun it => (st0.debtors.length, it)) }) := by
      simp [createDebtor, hv, hitems, hnp, hng, hpos]
    rw [h]
    exact ⟨rfl, rfl, rfl, rfl⟩

/-- Witness for C6 (amended), at the concrete input of the
counterexample. -/
theorem createDebtor_nonAtomic_witness :
    ((createDebtor ⟨[], [], []⟩ "John Smith" "08012345678"
        ⟨[⟨"Rice", 1, 1000, 1000⟩], 1000⟩ 500 false true false).1 =
        .itemsInsertFailed ∧
      (createDebtor ⟨[], [], []⟩ "John Smith" "08012345678"
        ⟨[⟨"Rice", 1, 1000, 1000⟩], 1000⟩ 500 false true false).2.debtors =
        [] ++ [(List.length ([] : List (Nat × Debtor)), ⟨1000, 500, (1000 : ℚ) - 500,
          if (1000 : ℚ) - 500 ≤ 0 then "paid" else "pending"⟩)] ∧
      (createDebtor ⟨[], [], []⟩ "John Smith" "08012345678"
        ⟨[⟨"Rice", 1, 1000, 1000⟩], 1000⟩ 500 false true false).2.debt_items =
        [] ∧
      (createDebtor ⟨[], [], []⟩ "John Smith" "08012345678"
        ⟨[⟨"Rice", 1, 1000, 1000⟩], 1000⟩ 500 false true false).2.payments =
        []) ∧
    ((0 : ℚ) < 500 →
      (createDebtor ⟨[], [], []⟩ "John Smith" "08012345678"
        ⟨[⟨"Rice", 1, 1000, 1000⟩], 1000⟩ 500 false false true).1 = .success ∧
      (createDebtor ⟨[], [], []⟩ "John Smith" "08012345678"
        ⟨[⟨"Rice", 1, 1000, 1000⟩], 1000⟩ 500 false false true).2.debtors =
        [] ++ [(List.length ([] : List (Nat × Debtor)), ⟨1000, 500, (1000 : ℚ) - 500,
          if (1000 : ℚ) - 500 ≤ 0 then "paid" else "pending"⟩)] ∧
      (createDebtor ⟨[], [], []⟩ "John Smith" "08012345678"
        ⟨[⟨"Rice", 1, 1000, 1000⟩], 1000⟩ 500 false false true).2.debt_items =
        [] ++ [(⟨"Rice", 1, 1000, 1000⟩ : DebtItem)].map
          (fun it => (List.length ([] : List (Nat × Debtor)), it)) ∧
      (createDebtor ⟨[], [], []⟩ "John Smith" "08012345678"
        ⟨[⟨"Rice", 1, 1000, 1000⟩], 1000⟩ 500 false false true).2.payments =
        []) :=
  createDebtor_nonAtomic ⟨[], [], []⟩ "John Smith" "08012345678"
    ⟨[⟨"Rice", 1, 1000, 1000⟩], 1000⟩ 500 (by decide) rfl
    (by norm_num) (by norm_num)

/-! ## Theorems: the CSV reader inverts the serializer -/

theorem splitQuoted_cons (sep : Char) (q : Bool) (c : Char) (cs : List Char) :
    splitQuoted sep q (c :: cs) =
      if c = sep ∧ q = false then [] :: splitQuoted sep false cs
      else
        match splitQuoted sep (if c = '"' then !q else q) cs with
        | [] => [[c]]
        | f :: fs => (c :: f) :: fs := rfl

theorem splitQuoted_ne_nil (sep : Char) :
    ∀ (s : List Char) (q : Bool), splitQuoted sep q s ≠ [] := by
  intro s
  induction s with
  | nil => intro q; simp [splitQuoted]
  | cons c cs ih =>
    intro q
    unfold splitQuoted
    split
    · simp
    · cases h : splitQuoted sep (if c = '"' then !q else q) cs <;> simp

theorem scanQ_append (a b : List Char) :
    ∀ q, scanQ q (a ++ b) = scanQ (scanQ q a) b := by
  induction a with
  | nil => intro q; rfl
  | cons c cs ih => intro q; simp [scanQ, ih]

theorem hasTopSep_append (sep : Char) (a b : List Char) :
    ∀ q, hasTopSep sep q (a ++ b) =
      (hasTopSep sep q a || hasTopSep sep (scanQ q a) b) := by
  induction a with
  | nil => intro q; simp [hasTopSep, scanQ]
  | cons c cs ih =>
    intro q
    by_cases hc : c = sep ∧ q = false
    · simp [hasTopSep, hc]
    · simp [hasTopSep, hc, scanQ, ih]

theorem splitQuoted_append (sep : Char) (s t : List Char) :
    ∀ q, hasTopSep sep q s = false →
      splitQuoted sep q (s ++ t) = consHead s (splitQuoted sep (scanQ q s) t) := by
  induction s with
  | nil =>
    intro q _
    cases h : splitQuoted sep q t with
    | nil => exact absurd h (splitQuoted_ne_nil sep t q)
    | cons f fs => simp [scanQ, consHead, h]
  | cons c cs ih =>
    intro q hns
    by_cases hc : c = sep ∧ q = false
    · unfold hasTopSep at hns
      rw [if_pos hc] at hns
      exact absurd hns (by simp)
    · unfold hasTopSep at hns
      rw [if_neg hc] at hns
      have hrest := ih (if c = '"' then !q else q) hns
      show splitQuoted sep q (c :: (cs ++ t)) = _
      rw [splitQuoted_cons, if_neg hc, hrest]
      cases h : splitQuoted sep (scanQ (if c = '"' then !q else q) cs) t with
      | nil => exact absurd h (splitQuoted_ne_nil sep t _)
      | cons f fs =>
        simp [consHead, scanQ, h]

theorem splitQuoted_single (sep : Char) (s : List Char) (q : Bool)
    (hns : hasTopSep sep q s = false) : splitQuoted sep q s = [s] := by
  have h := splitQuoted_append sep s [] q hns
  simpa [splitQuoted, consHead] using h

theorem splitQuoted_sep_cons (sep : Char) (t : List Char) :
    splitQuoted sep false (sep :: t) = [] :: splitQuoted sep false t := by
  simp [splitQuoted]

theorem splitQuoted_joinSep (sep : Char) (ss : List (List Char))
    (hss : ss ≠ [])
    (h : ∀ s ∈ ss, hasTopSep sep false s = false ∧ scanQ false s = false) :
    splitQuoted sep false (joinSep sep ss) = ss := by
  induction ss with
  | nil => exact absurd rfl hss
  | cons x ss ih =>
    cases ss with
    | nil =>
      show splitQuoted sep false (joinSep sep [x]) = [x]
      have hx := h x (by simp)
      exact splitQuoted_single sep x false hx.1
    | cons y rest =>
      have hx := h x (by simp)
      have hjoin : joinSep sep (x :: y :: rest) =
          x ++ sep :: joinSep sep (y :: rest) := rfl
      rw [hjoin, splitQuoted_append sep x _ false hx.1, hx.2,
        splitQuoted_sep_cons,
        ih (by simp) (fun s hs => h s (List.mem_cons_of_mem x hs))]
      simp [consHead]

theorem scanQ_escQuotes (s : List Char) : ∀ q, scanQ q (escQuotes s) = q := by
  induction s with
  | nil => intro q; rfl
  | cons c cs ih =>
    intro q
    by_cases hc : c = '"'
    · simp [escQuotes, hc, scanQ, ih]
    · simp [escQuotes, hc, scanQ, ih]

theorem hasTopSep_escQuotes (sep : Char) (hsep : sep ≠ '"') (s : List Char) :
    hasTopSep sep true (escQuotes s) = false := by
  induction s with
  | nil => rfl
  | cons c cs ih =>
    by_cases hc : c = '"'
    · simp [escQuotes, hc, hasTopSep, Ne.symm hsep, ih]
    · simp [escQuotes, hc, hasTopSep, ih]

theorem scanQ_of_no_quote (s : List Char) (h : ∀ c ∈ s, c ≠ '"') :
    ∀ q, scanQ q s = q := by
  induction s with
  | nil => intro q; rfl
  | cons c cs ih =>
    intro q
    have hc : c ≠ '"' := h c (by simp)
    simp [scanQ, hc]
    exact ih (fun d hd => h d (List.mem_cons_of_mem c hd)) q

theorem hasTopSep_of_no_sep (sep : Char) (s : List Char)
    (h : ∀ c ∈ s, c ≠ sep) : ∀ q, hasTopSep sep q s = false := by
  induction s with
  | nil => intro q; rfl
  | cons c cs ih =>
    intro q
    have hc : c ≠ sep := h c (by simp)
    simp [hasTopSep, hc]
    exact ih (fun d hd => h d (List.mem_cons_of_mem c hd)) _

theorem needsQuote_chars (s : List Char) (h : needsQuote s = false) :
    ∀ c ∈ s, c ≠ ',' ∧ c ≠ '"' ∧ c ≠ '\n' := by
  simp only [needsQuote, List.any_eq_false, Bool.or_eq_true, beq_iff_eq,
    not_or] at h
  intro c hc
  exact ⟨(h c hc).1.1, (h c hc).1.2, (h c hc).2⟩

theorem scanQ_escapeField (s : List Char) :
    scanQ false (escapeField s) = false := by
  unfold escapeField
  by_cases hq : needsQuote s
  · rw [if_pos hq]
    show scanQ false ('"' :: (escQuotes s ++ ['"'])) = false
    simp [scanQ, scanQ_append, scanQ_escQuotes]
  · rw [if_neg hq]
    exact scanQ_of_no_quote s
      (fun c hc => (needsQuote_chars s (Bool.not_eq_true _ ▸ eq_false_of_ne_true hq) c hc).2.1)
      false

theorem hasTopSep_escapeField (sep : Char) (hsep : sep = ',' ∨ sep = '\n')
    (s : List Char) : hasTopSep sep false (escapeField s) = false := by
  have hsq : sep ≠ '"' := by rcases hsep with h | h <;> subst h <;> decide
  unfold escapeField
  by_cases hq : needsQuote s
  · rw [if_pos hq]
    show hasTopSep sep false ('"' :: (escQuotes s ++ ['"'])) = false
    simp only [hasTopSep, Ne.symm hsq, false_and, if_false]
    rw [hasTopSep_append]
    simp [hasTopSep_escQuotes sep hsq, scanQ_escQuotes, hasTopSep, Ne.symm hsq]
  · rw [if_neg hq]
    have hch := needsQuote_chars s (eq_false_of_ne_true hq)
    refine hasTopSep_of_no_sep sep s (fun c hc => ?_) false
    rcases hsep with h | h <;> subst h
    · exact (hch c hc).1
    · exact (hch c hc).2.2

theorem escQuotes_nil_iff (s : List Char) : escQuotes s = [] ↔ s = [] := by
  cases s with
  | nil => simp [escQuotes]
  | cons c cs =>
    simp only [escQuotes]
    split <;> simp

theorem unescQuotes_escQuotes (s : List Char) :
    unescQuotes (escQuotes s) = s := by
  induction s with
  | nil => rfl
  | cons c cs ih =>
    by_cases hc : c = '"'
    · subst hc
      show unescQuotes ('"' :: '"' :: escQuotes cs) = '"' :: cs
      rw [unescQuotes]
      simp [ih]
    · rw [show escQuotes (c :: cs) = c :: escQuotes cs by simp [escQuotes, hc]]
      cases h : escQuotes cs with
      | nil =>
        have : cs = [] := (escQuotes_nil_iff cs).mp h
        subst this
        rfl
      | cons d ds =>
        rw [unescQuotes]
        simp only [hc, false_and, if_false]
        rw [← h, ih]

theorem unquoteField_escapeField (s : List Char) :
    unquoteField (escapeField s) = s := by
  unfold escapeField
  by_cases hq : needsQuote s
  · rw [if_pos hq]
    show unquoteField ('"' :: (escQuotes s ++ ['"'])) = s
    simp [unquoteField, List.dropLast_concat, unescQuotes_escQuotes]
  · rw [if_neg hq]
    cases s with
    | nil => rfl
    | cons c cs =>
      have hc : c ≠ '"' :=
        (needsQuote_chars _ (eq_false_of_ne_true hq) c (by simp)).2.1
      simp [unquoteField, hc]

theorem unquoteField_of_not_needsQuote (s : List Char)
    (h : needsQuote s = false) : unquoteField s = s := by
  cases s with
  | nil => rfl
  | cons c cs =>
    have hc : c ≠ '"' := (needsQuote_chars _ h c (by simp)).2.1
    simp [unquoteField, hc]

theorem csvCell_eq_escape (v : JSValue) :
    csvCell v = escapeField (cellData v) := by
  cases v <;> rfl

theorem scanQ_joinSep (j : Char) (hj : j ≠ '"') (ss : List (List Char))
    (h : ∀ s ∈ ss, scanQ false s = false) :
    scanQ false (joinSep j ss) = false := by
  induction ss with
  | nil => rfl
  | cons x ss ih =>
    cases ss with
    | nil => exact h x (by simp)
    | cons y rest =>
      show scanQ false (x ++ j :: joinSep j (y :: rest)) = false
      rw [scanQ_append, h x (by simp)]
      show scanQ (if j = '"' then !false else false) (joinSep j (y :: rest)) = false
      rw [if_neg hj]
      exact ih (fun s hs => h s (List.mem_cons_of_mem x hs))

theorem hasTopSep_joinSep (sep j : Char) (hj : j ≠ '"') (hjs : j ≠ sep)
    (ss : List (List Char))
    (h : ∀ s ∈ ss, hasTopSep sep false s = false ∧ scanQ false s = false) :
    hasTopSep sep false (joinSep j ss) = false := by
  induction ss with
  | nil => rfl
  | cons x ss ih =>
    cases ss with
    | nil => exact (h x (by simp)).1
    | cons y rest =>
      show hasTopSep sep false (x ++ j :: joinSep j (y :: rest)) = false
      rw [hasTopSep_append, (h x (by simp)).1, (h x (by simp)).2]
      show (false || hasTopSep sep false (j :: joinSep j (y :: rest))) = false
      rw [Bool.false_or]
      show (if j = sep ∧ false = false then true
        else hasTopSep sep (if j = '"' then !false else false)
          (joinSep j (y :: rest))) = false
      rw [if_neg (by simp [hjs]), if_neg hj]
      exact ih (fun s hs => h s (List.mem_cons_of_mem x hs))

/-- A serialized cell never opens a quote context it does not close. -/
theorem scanQ_csvCell (v : JSValue) : scanQ false (csvCell v) = false := by
  rw [csvCell_eq_escape]
  exact scanQ_escapeField _

/-- A serialized cell has no comma or newline outside quotes. -/
theorem hasTopSep_csvCell (sep : Char) (hsep : sep = ',' ∨ sep = '\n')
    (v : JSValue) : hasTopSep sep false (csvCell v) = false := by
  rw [csvCell_eq_escape]
  exact hasTopSep_escapeField sep hsep _

/-- Undoing the quoting of a serialized cell recovers the cell's data. -/
theorem unquoteField_csvCell (v : JSValue) :
    unquoteField (csvCell v) = cellData v := by
  rw [csvCell_eq_escape]
  exact unquoteField_escapeField _

/-- Keys that need no quoting pass through one serialized line unchanged. -/
theorem key_conditions (sep : Char) (hsep : sep = ',' ∨ sep = '\n')
    (k : List Char) (hk : needsQuote k = false) :
    hasTopSep sep false k = false ∧ scanQ false k = false := by
  have hch := needsQuote_chars k hk
  constructor
  · refine hasTopSep_of_no_sep sep k (fun c hc => ?_) false
    rcases hsep with h | h <;> subst h
    · exact (hch c hc).1
    · exact (hch c hc).2.2
  · exact scanQ_of_no_quote k (fun c hc => (hch c hc).2.1) false

/-- C4, amended. Parsing the text produced by `exportToCsv` (records
split at unquoted newlines, fields at unquoted commas, quoted fields
unwrapped with doubled quotes collapsed) recovers the header keys and, for
every row and column, the exported cell string: the `String()` image of
the source field whenever the field is neither `null` nor `undefined`
(including values containing commas, double quotes, or newlines), and the
empty string for `null`/`undefined` fields. -/
theorem exportToCsv_roundTrip (keys : List (List Char)) (rows : List CsvRow)
    (out : List Char) (hk : keys ≠ [])
    (hclean : ∀ k ∈ keys, needsQuote k = false)
    (hexp : exportToCsv keys rows = some out) :
    parseCsv out =
      keys :: rows.map (fun r => keys.map (fun k => cellData (lookupField r k))) := by
  unfold exportToCsv at hexp
  split at hexp
  · exact absurd hexp (by simp)
  · have hout := Option.some_inj.mp hexp
    subst hout
    set header := joinSep ',' keys with hheader
    set lines := rows.map (fun row =>
      joinSep ',' (keys.map (fun k => csvCell (lookupField row k)))) with hlines
    have hcellconds : ∀ (sep : Char), sep = ',' ∨ sep = '\n' →
        ∀ (r : CsvRow) (s : List Char),
        s ∈ keys.map (fun k => csvCell (lookupField r k)) →
        hasTopSep sep false s = false ∧ scanQ false s = false := by
      intro sep hsep r s hs
      rcases List.mem_map.mp hs with ⟨k, -, hk'⟩
      subst hk'
      exact ⟨hasTopSep_csvCell sep hsep _, scanQ_csvCell _⟩
    have hkeyconds : ∀ (sep : Char), sep = ',' ∨ sep = '\n' →
        ∀ k ∈ keys, hasTopSep sep false k = false ∧ scanQ false k = false :=
      fun sep hsep k hk' => key_conditions sep hsep k (hclean k hk')
    have hrecords : ∀ s ∈ header :: lines,
        hasTopSep '\n' false s = false ∧ scanQ false s = false := by
      intro s hs
      rcases List.mem_cons.mp hs with hs | hs
      · subst hs
        constructor
        · exact hasTopSep_joinSep '\n' ',' (by decide) (by decide) keys
            (hkeyconds '\n' (Or.inr rfl))
        · exact scanQ_joinSep ',' (by decide) keys
            (fun k hk' => (hkeyconds '\n' (Or.inr rfl) k hk').2)
      · rcases List.mem_map.mp hs with ⟨r, -, hr⟩
        subst hr
        constructor
        · exact hasTopSep_joinSep '\n' ',' (by decide) (by decide) _
            (hcellconds '\n' (Or.inr rfl) r)
        · exact scanQ_joinSep ',' (by decide) _
            (fun s hs' => (hcellconds '\n' (Or.inr rfl) r s hs').2)
    have hsplit1 : splitQuoted '\n' false (joinSep '\n' (header :: lines)) =
        header :: lines :=
      splitQuoted_joinSep '\n' (header :: lines) (by simp) hrecords
    unfold parseCsv
    rw [hsplit1]
    show ((splitQuoted ',' false header).map unquoteField) ::
        lines.map (fun r => (splitQuoted ',' false r).map unquoteField) = _
    congr 1
    · rw [hheader, splitQuoted_joinSep ',' keys hk (hkeyconds ',' (Or.inl rfl))]
      calc keys.map unquoteField
          = keys.map id := List.map_congr_left
            (fun k hk' => unquoteField_of_not_needsQuote k (hclean k hk'))
        _ = keys := List.map_id keys
    · rw [hlines, List.map_map]
      refine List.map_congr_left (fun r _ => ?_)
      show (splitQuoted ',' false
        (joinSep ',' (keys.map (fun k => csvCell (lookupField r k))))).map
          unquoteField = _
      rw [splitQuoted_joinSep ',' _ (by simpa using hk) (hcellconds ',' (Or.inl rfl) r),
        List.map_map]
      refine List.map_congr_left (fun k _ => ?_)
      exact unquoteField_csvCell _

/-- Witness for C4 (amended): two rows whose values contain a comma, a
double quote, an embedded newline, and a `null`. -/
theorem exportToCsv_roundTrip_witness :
    parseCsv ['A', ',', 'B', '\n',
      '"', 'a', ',', 'b', '"', ',', '"', 'x', '"', '"', 'y', '"', '\n',
      '"', 'l', '\n', 'm', '"', ','] =
      [['A'], ['B']] ::
        [[(['A'], JSValue.vStr ['a', ',', 'b']),
          (['B'], JSValue.vStr ['x', '"', 'y'])],
         [(['A'], JSValue.vStr ['l', '\n', 'm']),
          (['B'], JSValue.vNull)]].map
          (fun r => [['A'], ['B']].map (fun k => cellData (lookupField r k))) :=
  exportToCsv_roundTrip [['A'], ['B']]
    [[(['A'], JSValue.vStr ['a', ',', 'b']),
      (['B'], JSValue.vStr ['x', '"', 'y'])],
     [(['A'], JSValue.vStr ['l', '\n', 'm']),
      (['B'], JSValue.vNull)]]
    ['A', ',', 'B', '\n',
      '"', 'a', ',', 'b', '"', ',', '"', 'x', '"', '"', 'y', '"', '\n',
      '"', 'l', '\n', 'm', '"', ',']
    (by decide) (by decide) (by decide)

/-- C4, counterexample. The claim as stated fails for a `null`
field: `exportToCsv` writes it as the empty string, so re-parsing yields
`""` while `String(null)` is `"null"`.  Concretely, with one key `A` and
one row whose `A` field is `null`, the parsed data cell is empty and
differs from the `String()` image of the source field. -/
theorem exportToCsv_nullField_counterexample :
    exportToCsv [['A']] [[(['A'], JSValue.vNull)]] = some ['A', '\n'] ∧
    parseCsv ['A', '\n'] = [[['A']], [[]]] ∧
    jsString (lookupField [(['A'], JSValue.vNull)] ['A']) =
      ['n', 'u', 'l', 'l'] ∧
    ([] : List Char) ≠ ['n', 'u', 'l', 'l'] := by
  refine ⟨by decide, by decide, by decide, by decide⟩

/-- C10. `exportToCsv` writes `null` and `undefined` fields as the
empty string — indistinguishable from a field whose source value is the
empty string — and produces no output at all for an empty row list. -/
theorem exportToCsv_nullBlank :
    csvCell JSValue.vNull = csvCell (JSValue.vStr []) ∧
    csvCell JSValue.vUndefined = csvCell (JSValue.vStr []) ∧
    csvCell JSValue.vNull = [] ∧
    exportToCsv [['A']] [[(['A'], JSValue.vNull)]] =
      exportToCsv [['A']] [[(['A'], JSValue.vStr [])]] ∧
    (∀ keys : List (List Char), exportToCsv keys [] = none) :=
  ⟨rfl, rfl, rfl, rfl, fun _ => rfl⟩

/-- Witness for C10 at concrete keys. -/
theorem exportToCsv_nullBlank_witness :
    exportToCsv [['A'], ['B']] [] = none :=
  exportToCsv_nullBlank.2.2.2.2 [['A'], ['B']]

end SquareSuite
